import Mathlib

/-!
Verification of the repository file src/06-objects-tasks.js.

The file exports four things: a Rectangle constructor function,
getJSON and fromJSON wrappers around the standard JSON codec, and a
cssSelectorBuilder object.  The selector builder keeps a single
accumulated string and a six-entry boolean usage array per object;
appends copy the receiver (copyObject), stringify drains the stored
string, and combine writes into the receiver object itself and returns
it.  We embed the builder as operations on an explicit heap of selector
objects (a list indexed by natural-number references), so that object
identity, copy-on-append and in-place mutation are all observable.
-/

set_option maxHeartbeats 1000000

/-- One selector object: the accumulated text (field string of the JS
object) and the six usage flags (field selectorUsed). -/
structure SelObj where
  string : String
  selectorUsed : List Bool
deriving DecidableEq, Repr

/-- The initial state of cssSelectorBuilder: empty string, six false
flags. -/
def initObj : SelObj := { string := "", selectorUsed := List.replicate 6 false }

instance : Inhabited SelObj := ⟨initObj⟩

/-- The heap of selector objects; a reference is an index into it. -/
abbrev Heap := List SelObj

abbrev Ref := Nat

/-- Dereference: reading an unallocated reference yields the default
object (never relied upon: theorems carry in-bounds hypotheses where it
matters). -/
def getObj (h : Heap) (r : Ref) : SelObj := h.getD r initObj

/-- The heap containing only the cssSelectorBuilder base object at
reference 0. -/
def initHeap : Heap := [initObj]

/-- The two errors thrown by the builder.  orderViolation is the error
thrown by checkOrder, duplicateCategory the one thrown by
shouldNotOccurMoreThenOneTime. -/
inductive BuilderError where
  | orderViolation
  | duplicateCategory
deriving DecidableEq, Repr

/-- The exact message texts of the two throw sites in the source. -/
def errorMessage : BuilderError → String
  | .orderViolation =>
      "Selector parts should be arranged in the following order: element, id, class, attribute, pseudo-class, pseudo-element"
  | .duplicateCategory =>
      "Element, id and pseudo-element should not occur more then one time inside the selector"

namespace cssSelectorBuilder

/-- checkOrder(order): the source loops i from order+1 to
selectorUsed.length-1 and throws when selectorUsed i is set.  We embed
the loop as: does any index i with order+1 <= i < length carry true? -/
def checkOrder (s : SelObj) (order : Nat) : Bool :=
  (List.range s.selectorUsed.length).any fun i =>
    decide (order + 1 ≤ i) && s.selectorUsed.getD i false

/-- getString(value): the source first normalises this.string with
the conditional (this.string ? this.string : two quotes), which on
strings is the identity (the empty string maps to itself), then
appends value. -/
def getString (s : SelObj) (value : String) : SelObj :=
  { s with string := s.string ++ value }

/-- copyObject(obj): spread-copies the object and replaces
selectorUsed by a slice.  On the heap this allocates a fresh object,
with the same fields, at the end. -/
def copyObject (h : Heap) (r : Ref) : Heap × Ref :=
  (h ++ [getObj h r], h.length)

/-- The shared body of the six append methods, with the source order
of effects: checkOrder first, then copyObject, then (for element, id
and pseudoElement) the duplicate check via
shouldNotOccurMoreThenOneTime, then setting the usage flag and
appending the decorated text on the copy.  slot is the category index,
uniq says whether the duplicate check is present, text is the already
decorated fragment. -/
def appendCore (h : Heap) (this : Ref) (slot : Nat) (uniq : Bool) (text : String) :
    Except BuilderError (Heap × Ref) :=
  if checkOrder (getObj h this) slot then .error .orderViolation
  else
    let hr := copyObject h this
    if uniq && (getObj hr.1 hr.2).selectorUsed.getD slot false then
      .error .duplicateCategory
    else
      let obj := getObj hr.1 hr.2
      let obj := { obj with selectorUsed := obj.selectorUsed.set slot true }
      let obj := getString obj text
      .ok (hr.1.set hr.2 obj, hr.2)

/-- element(value): slot 0, duplicate-checked, text appended verbatim. -/
def element (h : Heap) (this : Ref) (value : String) : Except BuilderError (Heap × Ref) :=
  appendCore h this 0 true value

/-- id(value): slot 1, duplicate-checked, text hash-then-value. -/
def id (h : Heap) (this : Ref) (value : String) : Except BuilderError (Heap × Ref) :=
  appendCore h this 1 true ("#" ++ value)

/-- class(value): slot 2, no duplicate check, text dot-then-value.
The method is called class in the source; class is a reserved word in
Lean, hence the primed name. -/
def class' (h : Heap) (this : Ref) (value : String) : Except BuilderError (Heap × Ref) :=
  appendCore h this 2 false ("." ++ value)

/-- attr(value): slot 3, no duplicate check, value wrapped in square
brackets. -/
def attr (h : Heap) (this : Ref) (value : String) : Except BuilderError (Heap × Ref) :=
  appendCore h this 3 false ("[" ++ value ++ "]")

/-- pseudoClass(value): slot 4, no duplicate check, text
colon-then-value. -/
def pseudoClass (h : Heap) (this : Ref) (value : String) : Except BuilderError (Heap × Ref) :=
  appendCore h this 4 false (":" ++ value)

/-- pseudoElement(value): slot 5, duplicate-checked, text double-colon
then value. -/
def pseudoElement (h : Heap) (this : Ref) (value : String) : Except BuilderError (Heap × Ref) :=
  appendCore h this 5 true ("::" ++ value)

/-- The object-level content of one append: the same checks and field
updates as appendCore, expressed on the receiver object alone (used to
state that an append depends only on the receiver's fields). -/
def appendObj (cur : SelObj) (slot : Nat) (uniq : Bool) (text : String) :
    Except BuilderError SelObj :=
  if checkOrder cur slot then .error .orderViolation
  else if uniq && cur.selectorUsed.getD slot false then .error .duplicateCategory
  else .ok (getString { cur with selectorUsed := cur.selectorUsed.set slot true } text)

/-- stringify(): reads this.string into a local, resets this.string to
the empty string on the object, and returns the local.  Returns the
updated heap together with the produced string. -/
def stringify (h : Heap) (this : Ref) : Heap × String :=
  let value := (getObj h this).string
  (h.set this { getObj h this with string := "" }, value)

/-- combine(selector1, combinator, selector2): stringifies both
arguments (draining them), writes the combined string into
this.string, and returns this itself. -/
def combine (h : Heap) (this : Ref) (s1 : Ref) (combinator : String) (s2 : Ref) :
    Heap × Ref :=
  let p1 := stringify h s1
  let p2 := stringify p1.1 s2
  let h3 := p2.1.set this { getObj p2.1 this with string := p1.2 ++ " " ++ combinator ++ " " ++ p2.2 }
  (h3, this)

/-- The six append categories of the builder, in slot order. -/
inductive Category where
  | element
  | id
  | cls
  | attr
  | pseudoClass
  | pseudoElement
deriving DecidableEq, Repr

/-- The slot index each category occupies. -/
def Category.slot : Category → Nat
  | .element => 0
  | .id => 1
  | .cls => 2
  | .attr => 3
  | .pseudoClass => 4
  | .pseudoElement => 5

/-- Whether the category's append method carries the duplicate check. -/
def Category.uniq : Category → Bool
  | .element => true
  | .id => true
  | .cls => false
  | .attr => false
  | .pseudoClass => false
  | .pseudoElement => true

/-- The decoration each append method applies to its argument before
accumulating it. -/
def Category.decorate : Category → String → String
  | .element, v => v
  | .id, v => "#" ++ v
  | .cls, v => "." ++ v
  | .attr, v => "[" ++ v ++ "]"
  | .pseudoClass, v => ":" ++ v
  | .pseudoElement, v => "::" ++ v

/-- Dispatch one append call by category. -/
def applyCat (h : Heap) (r : Ref) (c : Category) (v : String) :
    Except BuilderError (Heap × Ref) :=
  match c with
  | .element => element h r v
  | .id => id h r v
  | .cls => class' h r v
  | .attr => attr h r v
  | .pseudoClass => pseudoClass h r v
  | .pseudoElement => pseudoElement h r v

/-- Run a sequence of append calls, threading the heap and the current
builder value, stopping at the first error. -/
def runAppends (h : Heap) (r : Ref) : List (Category × String) → Except BuilderError (Heap × Ref)
  | [] => .ok (h, r)
  | q :: rest =>
    match applyCat h r q.1 q.2 with
    | .ok pr => runAppends pr.1 pr.2 rest
    | .error e => .error e

/-- Build a selector from scratch (fresh cssSelectorBuilder heap,
receiver reference 0). -/
def build (ps : List (Category × String)) : Except BuilderError (Heap × Ref) :=
  runAppends initHeap 0 ps

/-- Build then stringify once; none when some append failed. -/
def renderBuilt (ps : List (Category × String)) : Option String :=
  match build ps with
  | .ok pr => some (stringify pr.1 pr.2).2
  | .error _ => none

/-- The slot indices of an append sequence. -/
def slots (ps : List (Category × String)) : List Nat :=
  ps.map fun q => q.1.slot

/-- The concatenation of the decorated fragments of an append
sequence, in call order. -/
def decoratedJoin : List (Category × String) → String
  | [] => ""
  | q :: rest => q.1.decorate q.2 ++ decoratedJoin rest

/-- A valid append sequence: slot indices are non-decreasing, and each
of the unique categories (element slot 0, id slot 1, pseudoElement
slot 5) occurs at most once. -/
def validSeq (ps : List (Category × String)) : Prop :=
  List.Sorted (· ≤ ·) (slots ps) ∧
    (slots ps).count 0 ≤ 1 ∧ (slots ps).count 1 ≤ 1 ∧ (slots ps).count 5 ≤ 1

instance (ps : List (Category × String)) : Decidable (validSeq ps) := by
  unfold validSeq List.Sorted
  infer_instance

end cssSelectorBuilder

/-!
The Rectangle constructor and the getJSON / fromJSON helpers.  We
model the JavaScript objects these touch as: a list of numeric data
properties, a list of own method properties, and the method list of
the prototype.  A method receives the data properties of its receiver
(the captured this) and produces a number.  JSON.stringify serialises
the data properties (function-valued properties are omitted by the
JSON standard) and JSON.parse produces data properties only; both are
modelled for the flat objects with integer fields that the claims
exercise.
-/

/-- The type of a method value: it computes from the data fields of
its receiver. -/
def JsMethod := List (String × Int) → Option Int

/-- A JavaScript object, restricted to the shapes this file builds:
integer data fields, own methods, and the methods of its prototype. -/
structure JsObj where
  fields : List (String × Int)
  ownMethods : List (String × JsMethod)
  protoMethods : List (String × JsMethod)

/-- Property read of a data field (own properties; the objects here
keep data only in own properties). -/
def lookupField (o : JsObj) (k : String) : Option Int :=
  o.fields.lookup k

/-- Method lookup walks own properties first, then the prototype. -/
def lookupMethod (o : JsObj) (k : String) : Option JsMethod :=
  match o.ownMethods.lookup k with
  | some m => some m
  | none => o.protoMethods.lookup k

/-- Calling a method: look it up and apply it to the receiver's data
fields. -/
def callMethod (o : JsObj) (k : String) : Option Int :=
  (lookupMethod o k).bind fun m => m o.fields

/-- The body of the arrow function the Rectangle constructor assigns
to this.getArea: this.width times this.height. -/
def getAreaImpl : JsMethod := fun fs => do
  let w ← fs.lookup "width"
  let h ← fs.lookup "height"
  pure (w * h)

/-- Rectangle.prototype: the source file defines function Rectangle
and assigns nothing to its prototype, so the prototype carries no
methods. -/
def RectanglePrototype : List (String × JsMethod) := []

/-- new Rectangle(width, height): assigns this.width, this.height and
this.getArea (an own property holding the area closure); the instance
prototype is Rectangle.prototype. -/
def Rectangle (width height : Int) : JsObj :=
  { fields := [("width", width), ("height", height)],
    ownMethods := [("getArea", getAreaImpl)],
    protoMethods := RectanglePrototype }

/-- Serialise a flat integer-field record in JSON object syntax, keys
in iteration order. -/
def jsonOfFields (fs : List (String × Int)) : String :=
  "\x7b" ++ String.intercalate "," (fs.map fun p => "\"" ++ p.1 ++ "\":" ++ toString p.2) ++ "\x7d"

/-- getJSON(obj) = JSON.stringify(obj): data fields are serialised,
function-valued properties are omitted per the JSON standard. -/
def getJSON (obj : JsObj) : String :=
  jsonOfFields obj.fields

/-- Parse a JSON string literal without escapes: an opening quote was
already consumed; take characters up to the closing quote. -/
def parseKey (cs : List Char) : Option (String × List Char) :=
  match cs with
  | c :: rest =>
    if c = '"' then
      let ks := rest.takeWhile (fun d => d ≠ '"')
      match rest.drop ks.length with
      | d :: r => if d = '"' then some (String.mk ks, r) else none
      | [] => none
    else none
  | [] => none

/-- Digits to a natural number, most significant first. -/
def natOfDigits (ds : List Char) : Nat :=
  ds.foldl (fun a c => a * 10 + (c.toNat - 48)) 0

/-- Parse a JSON integer literal (optional minus sign, digits). -/
def parseIntLit (cs : List Char) : Option (Int × List Char) :=
  match cs with
  | c :: rest =>
    if c = '-' then
      let ds := rest.takeWhile Char.isDigit
      if ds.isEmpty then none
      else some (-(Int.ofNat (natOfDigits ds)), rest.drop ds.length)
    else
      let ds := cs.takeWhile Char.isDigit
      if ds.isEmpty then none
      else some (Int.ofNat (natOfDigits ds), cs.drop ds.length)
  | [] => none

/-- Parse comma-separated key:int pairs; the fuel bounds recursion
depth and is always supplied with at least the input length. -/
def parsePairs : Nat → List Char → Option (List (String × Int) × List Char)
  | 0, _ => none
  | fuel + 1, cs => do
    let (k, cs1) ← parseKey cs
    match cs1 with
    | c :: cs2 =>
      if c = ':' then do
        let (v, cs3) ← parseIntLit cs2
        match cs3 with
        | d :: cs4 =>
          if d = ',' then do
            let (rest, cs5) ← parsePairs fuel cs4
            pure ((k, v) :: rest, cs5)
          else pure ([(k, v)], cs3)
        | [] => pure ([(k, v)], [])
      else none
    | [] => none

/-- JSON.parse, modelled for the flat integer-field objects this
file's claims exercise. -/
def parseJSON (s : String) : Option (List (String × Int)) :=
  match s.data with
  | c :: cs =>
    if c = '\x7b' then
      if cs = [ '\x7d' ] then some []
      else
        match parsePairs (cs.length + 1) cs with
        | some (fs, rest) => if rest = [ '\x7d' ] then some fs else none
        | none => none
    else none
  | [] => none

/-- fromJSON(proto, json) = Object.setPrototypeOf(JSON.parse(json),
proto): the parsed value has data properties only (JSON carries no
functions), and its prototype is replaced by the given one. -/
def fromJSON (proto : List (String × JsMethod)) (json : String) : Option JsObj :=
  (parseJSON json).map fun fs =>
    { fields := fs, ownMethods := [], protoMethods := proto }

/-- The plain object literal with width 10 and height 20 used by the
round-trip scenario. -/
def plainWH : JsObj :=
  { fields := [("width", 10), ("height", 20)], ownMethods := [], protoMethods := [] }

/-- A concrete heap for the combine scenarios: the base builder object
and four already built one-element selectors with texts a, b, c, d. -/
def exHeap : Heap :=
  [initObj,
   { string := "a", selectorUsed := [true, false, false, false, false, false] },
   { string := "b", selectorUsed := [true, false, false, false, false, false] },
   { string := "c", selectorUsed := [true, false, false, false, false, false] },
   { string := "d", selectorUsed := [true, false, false, false, false, false] }]

/-!
Helper lemmas about the heap embedding.
-/

namespace cssSelectorBuilder

theorem getD_set_self {l : List Bool} {i : Nat} (a : Bool) (h : i < l.length) :
    (l.set i a).getD i false = a := by
  rw [List.getD_eq_getElem _ _ (by simpa using h)]
  simp

theorem getD_set_ne {l : List Bool} {i j : Nat} (a : Bool) (h : i ≠ j) :
    (l.set i a).getD j false = l.getD j false := by
  rw [List.getD_eq_getElem?_getD, List.getElem?_set_ne h, ← List.getD_eq_getElem?_getD]

theorem getD_replicate_false (n i : Nat) :
    (List.replicate n false).getD i false = false := by
  rcases Nat.lt_or_ge i n with h | h
  · rw [List.getD_eq_getElem _ _ (by simpa using h)]
    simp
  · exact List.getD_eq_default _ _ (by simpa using h)

theorem getObj_append_self (h : Heap) (o : SelObj) : getObj (h ++ [o]) h.length = o := by
  unfold getObj
  rw [List.getD_append_right _ _ _ _ (le_refl _)]
  simp

theorem getObj_append_lt (h l : Heap) (j : Nat) (hj : j < h.length) :
    getObj (h ++ l) j = getObj h j :=
  List.getD_append _ _ _ _ hj

theorem set_append_length (h : Heap) (c o : SelObj) :
    (h ++ [c]).set h.length o = h ++ [o] := by
  induction h with
  | nil => rfl
  | cons a t ih =>
    show a :: ((t ++ [c]).set t.length o) = a :: (t ++ [o])
    rw [ih]

theorem getObj_set_self (h : Heap) (r : Ref) (o : SelObj) (hr : r < h.length) :
    getObj (h.set r o) r = o := by
  unfold getObj
  rw [List.getD_eq_getElem _ _ (by simpa using hr)]
  simp

theorem getObj_set_ne (h : Heap) (r j : Ref) (o : SelObj) (hne : r ≠ j) :
    getObj (h.set r o) j = getObj h j := by
  unfold getObj
  rw [List.getD_eq_getElem?_getD, List.getElem?_set_ne hne, ← List.getD_eq_getElem?_getD]

theorem checkOrder_eq_false_iff (s : SelObj) (k : Nat) :
    checkOrder s k = false ↔ ∀ i, k < i → s.selectorUsed.getD i false = false := by
  unfold checkOrder
  rw [← Bool.not_eq_true, List.any_eq_true]
  constructor
  · intro hno i hk
    by_cases hi : i < s.selectorUsed.length
    · cases hb : s.selectorUsed.getD i false
      · rfl
      · refine absurd ⟨i, List.mem_range.mpr hi, ?_⟩ hno
        simp only [hb, Bool.and_true, decide_eq_true_iff]
        exact Nat.succ_le_of_lt hk
    · exact List.getD_eq_default _ _ (Nat.le_of_not_lt hi)
  · rintro hall ⟨i, hmem, hp⟩
    rw [Bool.and_eq_true, decide_eq_true_iff] at hp
    have hz := hall i (Nat.lt_of_succ_le hp.1)
    rw [hz] at hp
    exact Bool.false_ne_true hp.2

theorem checkOrder_eq_true (s : SelObj) (k i : Nat) (hk : k < i)
    (hi : s.selectorUsed.getD i false = true) : checkOrder s k = true := by
  cases hc : checkOrder s k
  · rw [checkOrder_eq_false_iff] at hc
    rw [hc i hk] at hi
    exact absurd hi Bool.false_ne_true
  · rfl

theorem appendCore_ok (h : Heap) (this : Ref) (slot : Nat) (uniq : Bool) (text : String)
    (hord : checkOrder (getObj h this) slot = false)
    (hdup : uniq = true → (getObj h this).selectorUsed.getD slot false = false) :
    appendCore h this slot uniq text =
      .ok (h ++ [{ getObj h this with
                    string := (getObj h this).string ++ text,
                    selectorUsed := (getObj h this).selectorUsed.set slot true }], h.length) := by
  unfold appendCore
  rw [hord]
  simp only [Bool.false_eq_true, if_false, copyObject, getObj_append_self]
  have hcond : (uniq && (getObj h this).selectorUsed.getD slot false) = false := by
    cases huniq : uniq
    · rfl
    · rw [hdup huniq]
      rfl
  rw [hcond]
  simp only [Bool.false_eq_true, if_false, getString]
  rw [set_append_length]

theorem appendCore_order_error (h : Heap) (this : Ref) (slot : Nat) (uniq : Bool) (text : String)
    (hord : checkOrder (getObj h this) slot = true) :
    appendCore h this slot uniq text = .error .orderViolation := by
  unfold appendCore
  rw [hord]
  rfl

theorem appendCore_dup_error (h : Heap) (this : Ref) (slot : Nat) (text : String)
    (hord : checkOrder (getObj h this) slot = false)
    (hdup : (getObj h this).selectorUsed.getD slot false = true) :
    appendCore h this slot true text = .error .duplicateCategory := by
  unfold appendCore
  rw [hord]
  simp only [Bool.false_eq_true, if_false, copyObject, getObj_append_self]
  rw [hdup]
  rfl

theorem appendCore_map_obj (h : Heap) (this : Ref) (slot : Nat) (uniq : Bool) (text : String) :
    Except.map (fun p : Heap × Ref => getObj p.1 p.2) (appendCore h this slot uniq text) =
      appendObj (getObj h this) slot uniq text := by
  unfold appendCore appendObj
  cases hc : checkOrder (getObj h this) slot
  · simp only [Bool.false_eq_true, if_false, copyObject, getObj_append_self]
    cases hd : (uniq && (getObj h this).selectorUsed.getD slot false)
    · simp only [Bool.false_eq_true, if_false, getString, Except.map]
      rw [set_append_length, getObj_append_self]
    · rfl
  · rfl

theorem applyCat_eq (h : Heap) (r : Ref) (c : Category) (v : String) :
    applyCat h r c v = appendCore h r c.slot c.uniq (c.decorate v) := by
  cases c <;> rfl

theorem Category.slot_lt_six (c : Category) : c.slot < 6 := by
  cases c <;> simp [Category.slot]

theorem Category.uniq_slot (c : Category) (h : c.uniq = true) :
    c.slot = 0 ∨ c.slot = 1 ∨ c.slot = 5 := by
  cases c <;> simp_all [Category.uniq, Category.slot]

theorem slots_cons (q : Category × String) (rest : List (Category × String)) :
    slots (q :: rest) = q.1.slot :: slots rest := rfl

theorem runAppends_ok (ps : List (Category × String)) :
    ∀ (h : Heap) (r : Ref),
      (getObj h r).selectorUsed.length = 6 →
      List.Sorted (· ≤ ·) (slots ps) →
      (slots ps).count 0 ≤ 1 → (slots ps).count 1 ≤ 1 → (slots ps).count 5 ≤ 1 →
      (∀ i q, (getObj h r).selectorUsed.getD i false = true → q ∈ ps → i ≤ q.1.slot) →
      (∀ q ∈ ps, q.1.uniq = true → (getObj h r).selectorUsed.getD q.1.slot false = false) →
      ∃ h' r', runAppends h r ps = .ok (h', r') ∧
        (getObj h' r').string = (getObj h r).string ++ decoratedJoin ps ∧
        (getObj h' r').selectorUsed =
          (slots ps).foldl (fun l s => l.set s true) (getObj h r).selectorUsed := by
  induction ps with
  | nil =>
    intro h r _ _ _ _ _ _ _
    exact ⟨h, r, rfl, by simp [decoratedJoin], rfl⟩
  | cons q rest ih =>
    intro h r hlen hsort hc0 hc1 hc5 hcompat huniq
    have hord : checkOrder (getObj h r) q.1.slot = false := by
      rw [checkOrder_eq_false_iff]
      intro i hi
      cases hb : (getObj h r).selectorUsed.getD i false
      · rfl
      · exact absurd (hcompat i q hb (List.mem_cons_self _ _)) (Nat.not_le_of_lt hi)
    have hdup : q.1.uniq = true → (getObj h r).selectorUsed.getD q.1.slot false = false :=
      fun hu => huniq q (List.mem_cons_self _ _) hu
    have happ := appendCore_ok h r q.1.slot q.1.uniq (q.1.decorate q.2) hord hdup
    have hsort' := (List.sorted_cons.mp (by rwa [slots_cons] at hsort))
    have hget :
        getObj (h ++ [{ getObj h r with
          string := (getObj h r).string ++ q.1.decorate q.2,
          selectorUsed := (getObj h r).selectorUsed.set q.1.slot true }]) h.length =
        { getObj h r with
          string := (getObj h r).string ++ q.1.decorate q.2,
          selectorUsed := (getObj h r).selectorUsed.set q.1.slot true } :=
      getObj_append_self _ _
    have hcount : ∀ x : Nat, (slots rest).count x ≤ (slots (q :: rest)).count x := by
      intro x
      rw [slots_cons, List.count_cons]
      exact Nat.le_add_right _ _
    obtain ⟨h', r', hrun, hstr, hused⟩ :=
      ih (h ++ [{ getObj h r with
            string := (getObj h r).string ++ q.1.decorate q.2,
            selectorUsed := (getObj h r).selectorUsed.set q.1.slot true }]) h.length
        (by rw [hget]; simpa using hlen)
        hsort'.2
        (le_trans (hcount 0) hc0) (le_trans (hcount 1) hc1) (le_trans (hcount 5) hc5)
        (by
          rw [hget]
          intro i q' hb hq'
          by_cases hi : i = q.1.slot
          · subst hi
            exact hsort'.1 q'.1.slot (List.mem_map.mpr ⟨q', hq', rfl⟩)
          · rw [getD_set_ne _ (fun he => hi he.symm)] at hb
            exact hcompat i q' hb (List.mem_cons_of_mem _ hq'))
        (by
          rw [hget]
          intro q' hq' hu
          by_cases heq : q'.1.slot = q.1.slot
          · exfalso
            have hmem : q'.1.slot ∈ slots rest := List.mem_map.mpr ⟨q', hq', rfl⟩
            have hone : 1 ≤ (slots rest).count q'.1.slot := List.count_pos_iff.mpr hmem
            have htwo : 2 ≤ (slots (q :: rest)).count q'.1.slot := by
              rw [slots_cons, List.count_cons, if_pos (by simp [heq])]
              omega
            rcases Category.uniq_slot q'.1 hu with h0 | h1 | h5
            · rw [h0] at htwo
              omega
            · rw [h1] at htwo
              omega
            · rw [h5] at htwo
              omega
          · rw [getD_set_ne _ (fun he => heq he.symm)]
            exact huniq q' (List.mem_cons_of_mem _ hq') hu)
    refine ⟨h', r', ?_, ?_, ?_⟩
    · show (match applyCat h r q.1 q.2 with
        | .ok pr => runAppends pr.1 pr.2 rest
        | .error e => .error e) = .ok (h', r')
      rw [applyCat_eq, happ]
      exact hrun
    · rw [hstr, hget]
      show (getObj h r).string ++ q.1.decorate q.2 ++ decoratedJoin rest =
        (getObj h r).string ++ decoratedJoin (q :: rest)
      rw [String.append_assoc]
      rfl
    · rw [hused, hget, slots_cons]
      rfl

end cssSelectorBuilder

/-!
The claims.
-/

namespace cssSelectorBuilder

/-- C1: for every sequence of category appends in valid order
(non-decreasing slot index, with the unique categories element, id and
pseudoElement each appended at most once), building and rendering
yields the concatenation, in slot order, of each appended fragment's
decorated text: type verbatim, id prefixed with a hash, class with a
dot, attribute wrapped in square brackets, pseudo-class with a colon,
pseudo-element with a double colon; unused slots contribute nothing.
In particular the two concrete scenarios of the spec render as
stated. -/
theorem C1_render_is_slot_order_concatenation :
    (∀ ps : List (Category × String),
        validSeq ps → renderBuilt ps = some (decoratedJoin ps)) ∧
    renderBuilt [(.id, "main"), (.cls, "container"), (.cls, "editable")] =
      some "#main.container.editable" ∧
    renderBuilt [(.element, "a"), (.attr, "href$=\".png\""), (.pseudoClass, "focus")] =
      some "a[href$=\".png\"]:focus" := by
  refine ⟨?_, rfl, rfl⟩
  intro ps hv
  obtain ⟨hsort, hc0, hc1, hc5⟩ := hv
  have hrepl : (getObj initHeap 0).selectorUsed = List.replicate 6 false := rfl
  obtain ⟨h', r', hrun, hstr, _⟩ :=
    runAppends_ok ps initHeap 0
      (by rw [hrepl]; simp)
      hsort hc0 hc1 hc5
      (by
        intro i q hb _
        rw [hrepl, getD_replicate_false] at hb
        exact (Bool.false_ne_true hb).elim)
      (by
        intro q _ _
        rw [hrepl]
        exact getD_replicate_false _ _)
  have hbuild : build ps = .ok (h', r') := hrun
  rw [renderBuilt, hbuild]
  show some (getObj h' r').string = some (decoratedJoin ps)
  rw [hstr]
  show some ("" ++ decoratedJoin ps) = some (decoratedJoin ps)
  simp

/-- Witness for C1: the universal part applied to the concrete valid
sequence element div, id x, class c. -/
theorem C1_witness :
    renderBuilt [(.element, "div"), (.id, "x"), (.cls, "c")] = some "div#x.c" :=
  (C1_render_is_slot_order_concatenation.1
    [(.element, "div"), (.id, "x"), (.cls, "c")] (by decide)).trans rfl

end cssSelectorBuilder

namespace cssSelectorBuilder

/-- C2 counterexample: rendering is not a pure projection.  Building
id(main) and stringifying twice yields the hash-main text first and
the empty string second, so repeated calls do not give identical
results. -/
theorem C2_counterexample :
    (match build [(Category.id, "main")] with
      | .ok pr => ((stringify pr.1 pr.2).2, (stringify (stringify pr.1 pr.2).1 pr.2).2)
      | .error _ => ("", "")) = ("#main", "") ∧ ("#main" : String) ≠ "" :=
  ⟨rfl, by decide⟩

/-- C2 amended: stringify is a drain, not a pure projection.  It
returns the accumulated text, resets the stored text of the value to
the empty string, and a second call (with no appends in between)
returns the empty string. -/
theorem C2_amended_stringify_drains (h : Heap) (r : Ref) (hr : r < h.length) :
    (stringify h r).2 = (getObj h r).string ∧
    getObj (stringify h r).1 r = { getObj h r with string := "" } ∧
    (stringify (stringify h r).1 r).2 = "" := by
  refine ⟨rfl, ?_, ?_⟩
  · exact getObj_set_self h r _ hr
  · show (getObj ((stringify h r).1) r).string = ""
    rw [show (stringify h r).1 = h.set r { getObj h r with string := "" } from rfl,
      getObj_set_self h r _ hr]

/-- Witness for C2 amended, at the singleton heap holding a selector
with accumulated text abc. -/
theorem C2_amended_witness :
    (stringify [⟨"abc", [true, false, false, false, false, false]⟩] 0).2 =
        (getObj [⟨"abc", [true, false, false, false, false, false]⟩] 0).string ∧
    getObj (stringify [⟨"abc", [true, false, false, false, false, false]⟩] 0).1 0 =
        { getObj [⟨"abc", [true, false, false, false, false, false]⟩] 0 with string := "" } ∧
    (stringify (stringify [⟨"abc", [true, false, false, false, false, false]⟩] 0).1 0).2 = "" :=
  C2_amended_stringify_drains [⟨"abc", [true, false, false, false, false, false]⟩] 0 (by decide)

/-- C3: whenever some slot with index strictly greater than the target
category's slot is already used, the append fails with the ordering
error, regardless of the state of the target slot itself (the order
check runs before the duplicate check, so an out-of-order duplicate
reports ordering, not duplication). -/
theorem C3_order_check_runs_first (h : Heap) (r : Ref) (c : Category) (v : String) (i : Nat)
    (hlt : c.slot < i) (hused : (getObj h r).selectorUsed.getD i false = true) :
    applyCat h r c v = .error .orderViolation := by
  rw [applyCat_eq]
  exact appendCore_order_error _ _ _ _ _ (checkOrder_eq_true _ _ i hlt hused)

/-- Witness for C3, at a state where the element slot is itself
already used (a duplicate) and the id slot is used as well: the
element append still reports the ordering error, not duplication. -/
theorem C3_witness :
    applyCat [⟨"a#b", [true, true, false, false, false, false]⟩] 0 Category.element "c" =
      .error .orderViolation :=
  C3_order_check_runs_first [⟨"a#b", [true, true, false, false, false, false]⟩] 0
    Category.element "c" 1 (by decide) (by decide)

/-- C4 counterexample: a second append of element does not always fail
with the duplication error.  After element(a).class(c), a further
element(b) fails with the ordering error instead. -/
theorem C4_counterexample :
    (match build [(Category.element, "a"), (Category.cls, "c")] with
      | .ok pr => element pr.1 pr.2 "b"
      | .error e => .error e) = .error .orderViolation ∧
    BuilderError.orderViolation ≠ BuilderError.duplicateCategory :=
  ⟨rfl, by decide⟩

/-- C4 amended: a second element append fails with the duplication
error only when no higher-indexed slot is used (otherwise the ordering
error fires first); a second pseudoElement append, whose slot has no
higher-indexed slots within the six, always fails with the duplication
error when its order scan is clean; and class, attribute and
pseudo-class appends succeed whenever their order scan is clean, and
leave the order scan clean, so they may be repeated any number of
times consecutively without failure. -/
theorem C4_amended_uniqueness :
    (∀ h r v, checkOrder (getObj h r) 0 = false →
        (getObj h r).selectorUsed.getD 0 false = true →
        element h r v = .error .duplicateCategory) ∧
    (∀ h r v, checkOrder (getObj h r) 5 = false →
        (getObj h r).selectorUsed.getD 5 false = true →
        pseudoElement h r v = .error .duplicateCategory) ∧
    (∀ h r c v, (c = Category.cls ∨ c = Category.attr ∨ c = Category.pseudoClass) →
        checkOrder (getObj h r) c.slot = false →
        ∃ h' r', applyCat h r c v = .ok (h', r') ∧
          checkOrder (getObj h' r') c.slot = false) := by
  refine ⟨?_, ?_, ?_⟩
  · intro h r v hord hdup
    exact appendCore_dup_error h r 0 v hord hdup
  · intro h r v hord hdup
    exact appendCore_dup_error h r 5 _ hord hdup
  · intro h r c v hc hord
    have huniq : c.uniq = false := by
      rcases hc with rfl | rfl | rfl <;> rfl
    have happ := appendCore_ok h r c.slot c.uniq (c.decorate v) hord
      (fun hu => ((Bool.false_ne_true (huniq ▸ hu)).elim))
    rw [applyCat_eq, happ]
    refine ⟨_, _, rfl, ?_⟩
    rw [getObj_append_self]
    rw [checkOrder_eq_false_iff]
    intro i hi
    show ((getObj h r).selectorUsed.set c.slot true).getD i false = false
    rw [getD_set_ne _ (Nat.ne_of_lt hi)]
    exact (checkOrder_eq_false_iff _ _).mp hord i hi

/-- Witness for C4 amended: a duplicate element at a clean-order
state, a duplicate pseudoElement, and a repeated class append. -/
theorem C4_amended_witness :
    element [⟨"a", [true, false, false, false, false, false]⟩] 0 "b" =
        .error .duplicateCategory ∧
    pseudoElement [⟨"::x", [false, false, false, false, false, true]⟩] 0 "y" =
        .error .duplicateCategory ∧
    ∃ h' r', applyCat [⟨".c", [false, false, true, false, false, false]⟩] 0 Category.cls "d" =
        .ok (h', r') ∧
      checkOrder (getObj h' r') Category.cls.slot = false :=
  ⟨C4_amended_uniqueness.1 [⟨"a", [true, false, false, false, false, false]⟩] 0 "b"
      (by decide) (by decide),
   C4_amended_uniqueness.2.1 [⟨"::x", [false, false, false, false, false, true]⟩] 0 "y"
      (by decide) (by decide),
   C4_amended_uniqueness.2.2 [⟨".c", [false, false, true, false, false, false]⟩] 0
      Category.cls "d" (Or.inl rfl) (by decide)⟩

/-- C5 counterexample: element(div).id(main) followed by
element(span) fails with the ordering error, not with the duplication
error the claim names. -/
theorem C5_counterexample :
    (match build [(Category.element, "div"), (Category.id, "main")] with
      | .ok pr => element pr.1 pr.2 "span"
      | .error e => .error e) = .error .orderViolation ∧
    BuilderError.orderViolation ≠ BuilderError.duplicateCategory :=
  ⟨rfl, by decide⟩

/-- C5 amended: element(div).id(main) followed by element(span)
fails, but with the ordering error: the order scan sees the used id
slot before the duplicate check on the element slot can fire. -/
theorem C5_amended_order_error :
    (match build [(Category.element, "div"), (Category.id, "main")] with
      | .ok pr => element pr.1 pr.2 "span"
      | .error e => .error e) = .error .orderViolation := rfl

end cssSelectorBuilder

namespace cssSelectorBuilder

theorem getObj_copyObject (h : Heap) (r : Ref) :
    getObj (copyObject h r).1 (copyObject h r).2 = getObj h r :=
  getObj_append_self h _

theorem appendCore_ok_inv (h : Heap) (this : Ref) (slot : Nat) (uniq : Bool) (text : String)
    (h' : Heap) (r' : Ref)
    (hok : appendCore h this slot uniq text = .ok (h', r')) :
    h' = h ++ [{ getObj h this with
        string := (getObj h this).string ++ text,
        selectorUsed := (getObj h this).selectorUsed.set slot true }] ∧
    r' = h.length := by
  cases hc : checkOrder (getObj h this) slot
  · cases hd : (uniq && (getObj h this).selectorUsed.getD slot false)
    · have hdup : uniq = true → (getObj h this).selectorUsed.getD slot false = false := by
        intro hu
        rw [hu] at hd
        simpa using hd
      rw [appendCore_ok h this slot uniq text hc hdup] at hok
      cases hok
      exact ⟨rfl, rfl⟩
    · obtain ⟨h1, h2⟩ : uniq = true ∧ (getObj h this).selectorUsed.getD slot false = true := by
        simpa using hd
      rw [h1, appendCore_dup_error h this slot text hc h2] at hok
      cases hok
  · rw [appendCore_order_error h this slot uniq text hc] at hok
    cases hok

/-- C6: every append operation has copy-on-append semantics: on
success it returns a freshly allocated reference distinct from the
receiver, the receiver object and every previously allocated object
are unchanged, and a further append addressed to the original
receiver produces the same outcome (same error, or same resulting
object fields) in the new heap as in the old one. -/
theorem C6_append_never_mutates_receiver (h : Heap) (r : Ref) (c : Category) (v : String)
    (h' : Heap) (r' : Ref) (hr : r < h.length)
    (hok : applyCat h r c v = .ok (h', r')) :
    getObj h' r = getObj h r ∧ r' = h.length ∧ r' ≠ r ∧
    (∀ j, j < h.length → getObj h' j = getObj h j) ∧
    (∀ c2 v2, Except.map (fun p : Heap × Ref => getObj p.1 p.2) (applyCat h' r c2 v2) =
        Except.map (fun p : Heap × Ref => getObj p.1 p.2) (applyCat h r c2 v2)) := by
  rw [applyCat_eq] at hok
  obtain ⟨hh, hrr⟩ := appendCore_ok_inv h r c.slot c.uniq (c.decorate v) h' r' hok
  subst hh
  subst hrr
  have hobjr : ∀ j, j < h.length → getObj (h ++ [{ getObj h r with
      string := (getObj h r).string ++ c.decorate v,
      selectorUsed := (getObj h r).selectorUsed.set c.slot true }]) j = getObj h j :=
    fun j hj => getObj_append_lt h _ j hj
  refine ⟨hobjr r hr, rfl, fun he => absurd (he ▸ hr) (lt_irrefl _), hobjr, ?_⟩
  intro c2 v2
  rw [applyCat_eq, applyCat_eq, appendCore_map_obj, appendCore_map_obj, hobjr r hr]

/-- Witness for C6: appending element a to the fresh builder heap. -/
theorem C6_witness :
    getObj [initObj, ⟨"a", [true, false, false, false, false, false]⟩] 0 =
        getObj [initObj] 0 ∧
    (1 : Ref) = List.length [initObj] ∧ (1 : Ref) ≠ 0 ∧
    (∀ j, j < List.length [initObj] →
        getObj [initObj, ⟨"a", [true, false, false, false, false, false]⟩] j =
          getObj [initObj] j) ∧
    (∀ c2 v2, Except.map (fun p : Heap × Ref => getObj p.1 p.2)
        (applyCat [initObj, ⟨"a", [true, false, false, false, false, false]⟩] 0 c2 v2) =
      Except.map (fun p : Heap × Ref => getObj p.1 p.2) (applyCat [initObj] 0 c2 v2)) :=
  C6_append_never_mutates_receiver [initObj] 0 Category.element "a"
    [initObj, ⟨"a", [true, false, false, false, false, false]⟩] 1 (by decide) (by rfl)

theorem combine_spec (h : Heap) (this s1 : Ref) (comb : String) (s2 : Ref)
    (hthis : this < h.length) (hne : s1 ≠ s2) :
    (combine h this s1 comb s2).2 = this ∧
    (combine h this s1 comb s2).1.length = h.length ∧
    (getObj (combine h this s1 comb s2).1 this).string =
      (getObj h s1).string ++ " " ++ comb ++ " " ++ (getObj h s2).string := by
  refine ⟨rfl, ?_, ?_⟩
  · show (List.set _ this _).length = h.length
    simp [combine, stringify]
  · show (getObj (List.set ((h.set s1 { getObj h s1 with string := "" }).set s2
        { getObj (h.set s1 { getObj h s1 with string := "" }) s2 with string := "" }) this
        { getObj ((h.set s1 { getObj h s1 with string := "" }).set s2
            { getObj (h.set s1 { getObj h s1 with string := "" }) s2 with string := "" }) this with
          string := (getObj h s1).string ++ " " ++ comb ++ " " ++
            (getObj (h.set s1 { getObj h s1 with string := "" }) s2).string }) this).string =
      (getObj h s1).string ++ " " ++ comb ++ " " ++ (getObj h s2).string
    rw [getObj_set_self _ this _ (by simpa using hthis)]
    show (getObj h s1).string ++ " " ++ comb ++ " " ++
        (getObj (h.set s1 { getObj h s1 with string := "" }) s2).string =
      (getObj h s1).string ++ " " ++ comb ++ " " ++ (getObj h s2).string
    rw [getObj_set_ne h s1 s2 _ hne]

/-- C7: for all distinct selector values and every combinator token
(accepted verbatim, unvalidated), the value combine produces renders
as render of the left, a space, the token, a space, render of the
right; the arguments may themselves be results of prior combines
since the statement quantifies over arbitrary heaps. -/
theorem C7_combine_renders_concatenation (h : Heap) (this s1 : Ref) (comb : String) (s2 : Ref)
    (hthis : this < h.length) (hne : s1 ≠ s2) :
    (stringify (combine h this s1 comb s2).1 (combine h this s1 comb s2).2).2 =
      (stringify h s1).2 ++ " " ++ comb ++ " " ++ (stringify h s2).2 := by
  have hs := combine_spec h this s1 comb s2 hthis hne
  show (getObj (combine h this s1 comb s2).1 (combine h this s1 comb s2).2).string = _
  rw [hs.1]
  exact hs.2.2

/-- Witness for C7 on the concrete example heap, with the plus
combinator. -/
theorem C7_witness :
    (stringify (combine exHeap 0 1 "+" 2).1 (combine exHeap 0 1 "+" 2).2).2 =
      (stringify exHeap 1).2 ++ " " ++ "+" ++ " " ++ (stringify exHeap 2).2 :=
  C7_combine_renders_concatenation exHeap 0 1 "+" 2 (by decide) (by decide)

/-- C8 counterexample: combine does not return a new value.  Two
successive combines through the builder both return reference 0 (the
shared builder object), and after the second combine the value
returned by the first one renders as the second combination, so an
operation on one value changed the observable state of another. -/
theorem C8_counterexample :
    (combine exHeap 0 1 "+" 2).2 = 0 ∧
    (combine (combine exHeap 0 1 "+" 2).1 0 3 "~" 4).2 = (combine exHeap 0 1 "+" 2).2 ∧
    (stringify (combine (combine exHeap 0 1 "+" 2).1 0 3 "~" 4).1
        (combine exHeap 0 1 "+" 2).2).2 = "c ~ d" ∧
    ("c ~ d" : String) ≠ "a + b" :=
  ⟨rfl, rfl, rfl, by decide⟩

/-- C8 amended: combine allocates nothing and returns the receiver
itself (the shared builder), after writing the combined string into
the receiver's string field; combined values obtained through the
same receiver therefore alias one another and are not independent. -/
theorem C8_amended_combine_mutates_shared_builder (h : Heap) (this s1 : Ref) (comb : String)
    (s2 : Ref) (hthis : this < h.length) (hne : s1 ≠ s2) :
    (combine h this s1 comb s2).2 = this ∧
    (combine h this s1 comb s2).1.length = h.length ∧
    (getObj (combine h this s1 comb s2).1 this).string =
      (getObj h s1).string ++ " " ++ comb ++ " " ++ (getObj h s2).string :=
  combine_spec h this s1 comb s2 hthis hne

/-- Witness for C8 amended on the concrete example heap with the
tilde combinator. -/
theorem C8_amended_witness :
    (combine exHeap 0 3 "~" 4).2 = 0 ∧
    (combine exHeap 0 3 "~" 4).1.length = exHeap.length ∧
    (getObj (combine exHeap 0 3 "~" 4).1 0).string =
      (getObj exHeap 3).string ++ " " ++ "~" ++ " " ++ (getObj exHeap 4).string :=
  C8_amended_combine_mutates_shared_builder exHeap 0 3 "~" 4 (by decide) (by decide)

/-- C10: the id category is also unique: when the id slot is already
used and no higher-indexed slot is used (the order scan is clean), a
further id append fails with the duplication error, exactly like
element and pseudoElement. -/
theorem C10_id_is_unique (h : Heap) (r : Ref) (v : String)
    (hord : checkOrder (getObj h r) 1 = false)
    (hdup : (getObj h r).selectorUsed.getD 1 false = true) :
    id h r v = .error .duplicateCategory :=
  appendCore_dup_error h r 1 _ hord hdup

/-- Witness for C10: the id slot used, everything later unused. -/
theorem C10_witness :
    id [⟨"#x", [false, true, false, false, false, false]⟩] 0 "y" =
      .error .duplicateCategory :=
  C10_id_is_unique [⟨"#x", [false, true, false, false, false, false]⟩] 0 "y"
    (by decide) (by decide)

end cssSelectorBuilder

/-- C9 counterexample: encoding the plain object with width 10 and
height 20, then decoding with Rectangle.prototype, yields an object
exposing width 10 and height 20, but calling getArea on it yields
nothing rather than 200: the source assigns getArea inside the
Rectangle constructor as an own property of each instance and leaves
Rectangle.prototype without methods, so the decoded object has no
area behavior. -/
theorem C9_counterexample :
    (fromJSON RectanglePrototype (getJSON plainWH)).map
      (fun o => (lookupField o "width", lookupField o "height", callMethod o "getArea")) =
      some (some 10, some 20, none) ∧
    (none : Option Int) ≠ some 200 :=
  ⟨rfl, by decide⟩

/-- C9 amended: the round trip yields an object with width 10 and
height 20 whose prototype is Rectangle.prototype, but without the
area behavior, since the prototype carries no methods; a directly
constructed Rectangle 10 20 does return 200 from getArea. -/
theorem C9_amended_roundtrip :
    (fromJSON RectanglePrototype (getJSON plainWH)).map
      (fun o => (lookupField o "width", lookupField o "height", callMethod o "getArea")) =
      some (some 10, some 20, none) ∧
    (fromJSON RectanglePrototype (getJSON plainWH)).map (fun o => o.protoMethods) =
      some RectanglePrototype ∧
    callMethod (Rectangle 10 20) "getArea" = some 200 :=
  ⟨rfl, rfl, rfl⟩
